import Mathlib

/-!
Shallow embedding of `src/serializer.py` (repository caccavale/serializer).

The source is a schema-driven bidirectional codec between dataclass-style
record instances and JSON-compatible tree values.  We embed:

  * `_fields_to_json`      as `Serializer.fieldsToJson`
  * `_to_json_with_match`  as `Serializer.toJsonWithMatch`
  * `_field_from_json`     as `Serializer.fieldFromJson`
  * `_from_json_with_match` as `Serializer.fromJsonWithMatch`
  * `_Serializable.from_json` as `Serializer.fromJson`
  * `_Serializable.to_json`   as `Serializer.toJson`

Python values handled by the engine are modelled by `PyVal`; a Python
`type` annotation used as a field type is modelled by `FieldType`; a schema
(nested lists/tuples of strings, ints, bools) by `Schema`.  Each `raise` /
failing `assert` site of the source is a distinct `Err` constructor, and
every Python exception becomes `Except.error` (the bare `except:` in the
union loop catches every exception, so only success/failure matters there).
-/

namespace Serializer

/-- Primitive Python values usable as `typing.Literal` arguments. -/
inductive Prim where
  | str (s : String)
  | int (n : Int)
  | bool (b : Bool)
deriving DecidableEq

/-- Schema trees: nested lists/tuples whose leaves are strings, ints and
bools, as accepted by `_to_json_with_match` / `_from_json_with_match`
(anything else raises the "jank" `TypeError`; such malformed schemas are
outside this datatype). Python accepts both `list` and `tuple` nodes and
treats them identically, so one `seq` constructor models both. -/
inductive Schema where
  | str (s : String)
  | int (n : Int)
  | bool (b : Bool)
  | seq (subs : List Schema)

/-- Field-type descriptors: the `type` annotations `_field_from_json`
dispatches on: the primitives `str`/`int`/`bool`, `Literal[...]`,
`Union[...]`, `List[t]`, `Tuple[ts...]`, `Dict[...]`, and a nested
serializer class (anything with a `from_json` classmethod), which carries
its `_schema` and its `__annotations__`. -/
inductive FieldType where
  | str
  | int
  | bool
  | lit (args : List Prim)
  | union (alts : List FieldType)
  | list (elem : FieldType)
  | tuple (elems : List FieldType)
  | dict
  | nested (schema : Schema) (fields : List (String × FieldType))

/-- Python runtime values flowing through the engine: the JSON-compatible
shapes (`str`, `int`, `bool`, `list`, `tuple`, string-keyed `dict`), plus
generator objects (produced by the tuple branch of `_field_from_json`,
which returns a generator expression) and record instances.  A record
instance carries its class data (the class's `_schema` and
`__annotations__`) and its field values in declaration order, as a
dataclass does.  A generator is modelled eagerly by the list of values it
will yield; no claim in this development ever consumes a generator, so the
timing of the element computations is unobservable here. -/
inductive PyVal where
  | str (s : String)
  | int (n : Int)
  | bool (b : Bool)
  | list (elems : List PyVal)
  | tuple (elems : List PyVal)
  | dict (entries : List (String × PyVal))
  | gen (yields : List PyVal)
  | record (schema : Schema) (fields : List (String × FieldType))
           (vals : List (String × PyVal))

/-- Distinct failure sites of the source (every one is a raised exception
propagating to the caller). -/
inductive Err where
  /-- `_from_json_with_match`: "string literal did not match". -/
  | literalMismatch
  /-- `_from_json_with_match` / `_to_json_with_match`: "called with some jank". -/
  | jank
  /-- `_field_from_json`: Literal branch, "did not match". -/
  | litSetMismatch
  /-- `_field_from_json`: union loop fell through, "did not match any union type". -/
  | unionExhausted
  /-- a failing `assert` (tuple arity check, or `assert False` for dict). -/
  | assertionError
  /-- missing attribute, e.g. a value with no `to_json` in `_fields_to_json`. -/
  | attrError
  /-- `TypeError` from iterating or taking `len` of a non-sequence value. -/
  | notIterable
  /-- the dataclass constructor rejected the keyword arguments
  (missing or unexpected field names). -/
  | constructorMismatch
deriving DecidableEq

mutual
/-- Structural equality of schemas (used for the dataclass class-identity
part of record equality). -/
def schemaBEq : Schema → Schema → Bool
  | .str a, .str b => a == b
  | .int a, .int b => a == b
  | .bool a, .bool b => a == b
  | .seq xs, .seq ys => schemaListBEq xs ys
  | _, _ => false

/-- Pairwise `schemaBEq` on lists of schemas. -/
def schemaListBEq : List Schema → List Schema → Bool
  | [], [] => true
  | x :: xs, y :: ys => schemaBEq x y && schemaListBEq xs ys
  | _, _ => false
end

mutual
/-- Structural equality of field-type descriptors. -/
def ftBEq : FieldType → FieldType → Bool
  | .str, .str => true
  | .int, .int => true
  | .bool, .bool => true
  | .lit a, .lit b => a == b
  | .union a, .union b => ftListBEq a b
  | .list a, .list b => ftBEq a b
  | .tuple a, .tuple b => ftListBEq a b
  | .dict, .dict => true
  | .nested s f, .nested t g => schemaBEq s t && fieldsBEq f g
  | _, _ => false

/-- Pairwise `ftBEq` on lists of field types. -/
def ftListBEq : List FieldType → List FieldType → Bool
  | [], [] => true
  | x :: xs, y :: ys => ftBEq x y && ftListBEq xs ys
  | _, _ => false

/-- Pairwise equality of name/field-type annotation maps. -/
def fieldsBEq : List (String × FieldType) → List (String × FieldType) → Bool
  | [], [] => true
  | (k, v) :: xs, (l, w) :: ys => k == l && ftBEq v w && fieldsBEq xs ys
  | _, _ => false
end

mutual
/-- Python `==` on the values of this model.  `int` and `bool` compare
across kinds (`True == 1` in Python); `list`, `tuple` and `dict` compare
elementwise only against the same kind; a `gen` compares unequal to
everything (generator equality is object identity, and every generator
appearing here is freshly constructed); records compare as dataclasses do:
same class (same schema and annotations) and equal field values in
declaration order.  (Python `dict` equality ignores key order; every dict
compared in this development is built in a single fixed order, so the
order-sensitive pairwise comparison below agrees with it there.) -/
def pyEq : PyVal → PyVal → Bool
  | .str a, .str b => a == b
  | .int a, .int b => a == b
  | .bool a, .bool b => a == b
  | .int a, .bool b => a == (if b then 1 else 0)
  | .bool a, .int b => (if a then (1 : Int) else 0) == b
  | .list xs, .list ys => pyEqList xs ys
  | .tuple xs, .tuple ys => pyEqList xs ys
  | .dict xs, .dict ys => pyEqKV xs ys
  | .record s f v, .record t g w => schemaBEq s t && fieldsBEq f g && pyEqKV v w
  | _, _ => false

/-- Pairwise `pyEq` on lists. -/
def pyEqList : List PyVal → List PyVal → Bool
  | [], [] => true
  | x :: xs, y :: ys => pyEq x y && pyEqList xs ys
  | _, _ => false

/-- Pairwise `pyEq` on string-keyed entry lists. -/
def pyEqKV : List (String × PyVal) → List (String × PyVal) → Bool
  | [], [] => true
  | (k, v) :: xs, (l, w) :: ys => k == l && pyEq v w && pyEqKV xs ys
  | _, _ => false
end

/-- Value of a `Literal` argument as a runtime value. -/
def Prim.toVal : Prim → PyVal
  | .str s => .str s
  | .int n => .int n
  | .bool b => .bool b

/-- Python iteration over a value, as `zip` and comprehensions use it:
lists, tuples and generators yield their elements, strings their
characters (as one-character strings), dicts their keys; ints, bools and
record instances are not iterable (`TypeError`). -/
def pyElems : PyVal → Except Err (List PyVal)
  | .list xs => .ok xs
  | .tuple xs => .ok xs
  | .gen xs => .ok xs
  | .str s => .ok (s.data.map fun c => .str (String.mk [c]))
  | .dict kvs => .ok (kvs.map fun kv => .str kv.1)
  | .int _ => .error .notIterable
  | .bool _ => .error .notIterable
  | .record _ _ _ => .error .notIterable

/-- Python `len`: lists, tuples, strings and dicts have a length;
generators, ints, bools and records raise `TypeError`. -/
def pyLen : PyVal → Except Err Nat
  | .list xs => .ok xs.length
  | .tuple xs => .ok xs.length
  | .str s => .ok s.length
  | .dict kvs => .ok kvs.length
  | .gen _ => .error .notIterable
  | .int _ => .error .notIterable
  | .bool _ => .error .notIterable
  | .record _ _ _ => .error .notIterable

/-- Field-name → field-type annotation map of a serializer class
(`cls.__annotations__`, iteration in declaration order). -/
abbrev Fields := List (String × FieldType)

/-- Field-name → value binding map harvested by a match
(a Python `dict`; first occurrence of a key is its binding). -/
abbrev Bindings := List (String × PyVal)

/-- Keep the first occurrence of every key, dropping later duplicates
(`seen` accumulates the keys already kept). -/
def dedupKeys (seen : List String) : Bindings → Bindings
  | [] => []
  | (k, v) :: rest =>
    if k ∈ seen then dedupKeys seen rest
    else (k, v) :: dedupKeys (k :: seen) rest

/-- Model of `dict(ChainMap(*maps))`: one entry per key, and for every key
the value comes from the earliest map containing it (`ChainMap` lookup
searches its maps left to right).  CPython enumerates the keys of the
result in a different order, but no code in the source (nor any claim)
observes that enumeration order: the result is only used for keyword
arguments and key lookup. -/
def chainDict (ms : List Bindings) : Bindings := dedupKeys [] ms.flatten

/-- Model of the dataclass constructor call `cls(**bindings)`: succeeds
exactly when the binding names are precisely the declared field names, and
stores the field values in declaration order. -/
def mkRecord (sch : Schema) (flds : Fields) (b : Bindings) : Except Err PyVal :=
  if flds.all (fun f => (b.lookup f.1).isSome) && b.all (fun kv => (flds.lookup kv.1).isSome)
  then .ok (.record sch flds (flds.map fun f => (f.1, (b.lookup f.1).getD (.int 0))))
  else .error .constructorMismatch

/-- Looking a value up in an association list only ever returns something
structurally smaller than the list. -/
theorem lookup_sizeOf {β : Type} [SizeOf β] (k : String) (v : β) :
    (l : List (String × β)) → l.lookup k = some v → sizeOf v < sizeOf l
  | [], h => by simp [List.lookup] at h
  | (k1, v1) :: rest, h => by
    simp only [List.lookup] at h
    cases hk : (k == k1) with
    | true =>
      simp only [hk] at h
      cases h
      simp only [List.cons.sizeOf_spec, Prod.mk.sizeOf_spec]
      omega
    | false =>
      simp only [hk] at h
      have := lookup_sizeOf k v rest h
      simp only [List.cons.sizeOf_spec]
      omega

mutual
/-- Embedding of `_field_from_json(j, field_type)`: coerce one JSON value
to a declared field type.  Branches in source order: primitives pass
through unchecked; `Literal` requires membership (by Python `==`);
`Union` tries alternatives in order swallowing every exception;
`List[t]` maps the coercion over the iterated value; `Tuple[ts]` asserts
`len(j) == len(ts)` and then returns a generator expression (modelled as
`PyVal.gen` holding its yields); `Dict` hits `assert False`; anything else
is a nested serializer class and delegates to its `from_json`. -/
def fieldFromJson (j : PyVal) : FieldType → Except Err PyVal
  | .str => .ok j
  | .int => .ok j
  | .bool => .ok j
  | .lit args =>
    if args.any (fun p => pyEq j p.toVal) then .ok j else .error .litSetMismatch
  | .union alts => coerceUnion j alts
  | .list elemTy => do
    let xs ← pyElems j
    let ys ← coerceEach xs elemTy
    return .list ys
  | .tuple elemTys => do
    let n ← pyLen j
    if n = elemTys.length then do
      let xs ← pyElems j
      let ys ← coercePairs xs elemTys
      return .gen ys
    else .error .assertionError
  | .dict => .error .assertionError
  | .nested sch flds => do
    let b ← fromJsonWithMatch j sch flds
    mkRecord sch flds b
termination_by ft => (2 * sizeOf ft, 0)
decreasing_by
  all_goals simp_wf
  all_goals (apply Prod.Lex.left; omega)

/-- The union loop of `_field_from_json`: first alternative whose coercion
does not raise wins; when the loop falls through, the trailing `raise`
fires. -/
def coerceUnion (j : PyVal) : List FieldType → Except Err PyVal
  | [] => .error .unionExhausted
  | a :: rest =>
    match fieldFromJson j a with
    | .ok v => .ok v
    | .error _ => coerceUnion j rest
termination_by alts => (2 * sizeOf alts + 1, 0)
decreasing_by
  all_goals simp_wf
  all_goals (apply Prod.Lex.left; omega)

/-- The list comprehension of the `List[t]` branch: coerce every element
against the single element type, propagating the first failure. -/
def coerceEach : List PyVal → FieldType → Except Err (List PyVal)
  | [], _ => .ok []
  | x :: xs, ft => do
    let y ← fieldFromJson x ft
    let ys ← coerceEach xs ft
    return y :: ys
termination_by xs ft => (2 * sizeOf ft + 1, sizeOf xs)
decreasing_by
  all_goals simp_wf
  all_goals first
    | (apply Prod.Lex.left; omega)
    | (apply Prod.Lex.right; omega)

/-- The `zip(j, field_type.__args__)` pairing of the tuple branch
(`zip` truncates to the shorter argument). -/
def coercePairs : List PyVal → List FieldType → Except Err (List PyVal)
  | _, [] => .ok []
  | [], _ :: _ => .ok []
  | x :: xs, ft :: fts => do
    let y ← fieldFromJson x ft
    let ys ← coercePairs xs fts
    return y :: ys
termination_by xs fts => (2 * sizeOf fts + 1, 0)
decreasing_by
  all_goals simp_wf
  all_goals (apply Prod.Lex.left; omega)

/-- Embedding of `_from_json_with_match(j, schema, fields)`: match a JSON
value against a schema, harvesting field bindings.  A sequence schema zips
the value with the sub-schemas and merges the sub-bindings through
`dict(ChainMap(...))`; a string leaf binds a field when it names one,
otherwise must equal the value exactly; an int or bool leaf returns an
empty binding map without inspecting the value. -/
def fromJsonWithMatch (j : PyVal) (sch : Schema) (fields : Fields) :
    Except Err Bindings :=
  match sch with
  | .seq subs => do
    let xs ← pyElems j
    let ms ← matchZip xs subs fields
    return chainDict ms
  | .str s =>
    match h : fields.lookup s with
    | some ft => do
      let v ← fieldFromJson j ft
      return [(s, v)]
    | none =>
      if pyEq (.str s) j then .ok [] else .error .literalMismatch
  | .int _ => .ok []
  | .bool _ => .ok []
termination_by (2 * (sizeOf sch + sizeOf fields), 0)
decreasing_by
  all_goals simp_wf
  all_goals apply Prod.Lex.left
  all_goals first
    | omega
    | (have hlt := lookup_sizeOf _ _ _ h; omega)

/-- The comprehension over `zip(j, schema)` of the sequence-schema branch
(`zip` truncates to the shorter argument). -/
def matchZip : List PyVal → List Schema → Fields → Except Err (List Bindings)
  | _, [], _ => .ok []
  | [], _ :: _, _ => .ok []
  | x :: xs, s :: ss, fields => do
    let m ← fromJsonWithMatch x s fields
    let ms ← matchZip xs ss fields
    return m :: ms
termination_by xs ss fields => (2 * (sizeOf ss + sizeOf fields) + 1, 0)
decreasing_by
  all_goals simp_wf
  all_goals (apply Prod.Lex.left; omega)
end

mutual
/-- Embedding of `_fields_to_json(j)`: render an arbitrary engine value as
a pure JSON tree.  `type(j) in (str, int, bool)` passes primitives
through; lists and tuples both become JSON arrays; dicts keep their
(string) keys and render their values; anything else must expose
`to_json()` — a record delegates to `_to_json_with_match` on its own
schema, while a generator object has no such method and raises
`AttributeError`. -/
def fieldsToJson : PyVal → Except Err PyVal
  | .str s => .ok (.str s)
  | .int n => .ok (.int n)
  | .bool b => .ok (.bool b)
  | .list xs => do
    let ys ← fieldsToJsonList xs
    return .list ys
  | .tuple xs => do
    let ys ← fieldsToJsonList xs
    return .list ys
  | .dict kvs => do
    let ws ← fieldsToJsonKV kvs
    return .dict ws
  | .gen _ => .error .attrError
  | .record sch flds vals => toJsonWithMatch sch flds vals
termination_by j => (sizeOf j, 0)
decreasing_by
  all_goals simp_wf
  all_goals (apply Prod.Lex.left; omega)

/-- The list comprehension of `_fields_to_json` over a list or tuple. -/
def fieldsToJsonList : List PyVal → Except Err (List PyVal)
  | [] => .ok []
  | x :: xs => do
    let y ← fieldsToJson x
    let ys ← fieldsToJsonList xs
    return y :: ys
termination_by xs => (sizeOf xs, 0)
decreasing_by
  all_goals simp_wf
  all_goals (apply Prod.Lex.left; omega)

/-- The dict comprehension of `_fields_to_json`: keys (all strings in this
model, so the `assert` passes) are kept, values rendered recursively. -/
def fieldsToJsonKV : List (String × PyVal) → Except Err (List (String × PyVal))
  | [] => .ok []
  | (k, v) :: kvs => do
    let w ← fieldsToJson v
    let ws ← fieldsToJsonKV kvs
    return (k, w) :: ws
termination_by kvs => (sizeOf kvs, 0)
decreasing_by
  all_goals simp_wf
  all_goals (apply Prod.Lex.left; omega)

/-- Embedding of `_to_json_with_match(schema, obj)` where `obj` is a record
instance of a class with annotations `flds` and field values `vals`: a
sequence schema projects each sub-schema against the same instance; a
string leaf naming a field renders that field's current value, any other
string is emitted literally; int and bool leaves are emitted literally. -/
def toJsonWithMatch (sch : Schema) (flds : Fields) (vals : Bindings) :
    Except Err PyVal :=
  match sch with
  | .seq subs => do
    let ys ← toJsonZip subs flds vals
    return .list ys
  | .str s =>
    if (flds.lookup s).isSome then
      match h : vals.lookup s with
      | some v => fieldsToJson v
      | none => .error .attrError
    else .ok (.str s)
  | .int n => .ok (.int n)
  | .bool b => .ok (.bool b)
termination_by (sizeOf flds + sizeOf vals, sizeOf sch)
decreasing_by
  all_goals simp_wf
  · apply Prod.Lex.right; omega
  · apply Prod.Lex.left
    have := lookup_sizeOf _ _ _ h
    omega

/-- The list comprehension of the sequence-schema branch of
`_to_json_with_match`. -/
def toJsonZip : List Schema → Fields → Bindings → Except Err (List PyVal)
  | [], _, _ => .ok []
  | s :: ss, flds, vals => do
    let y ← toJsonWithMatch s flds vals
    let ys ← toJsonZip ss flds vals
    return y :: ys
termination_by ss flds vals => (sizeOf flds + sizeOf vals, sizeOf ss)
decreasing_by
  all_goals simp_wf
  all_goals (apply Prod.Lex.right; omega)
end

/-- Reduction of `pure` into the `Except` constructor. -/
@[simp] theorem pure_ok {α : Type} (a : α) :
    (pure a : Except Err α) = .ok a := rfl

/-- Reduction of monadic bind on a successful `Except` value. -/
@[simp] theorem ok_bind {α β : Type} (a : α) (f : α → Except Err β) :
    (Except.ok a : Except Err α) >>= f = f a := rfl

/-- Reduction of monadic bind on a failed `Except` value. -/
@[simp] theorem error_bind {α β : Type} (e : Err) (f : α → Except Err β) :
    (Except.error e : Except Err α) >>= f = .error e := rfl

/-- Reduction of `Functor.map` on a successful `Except` value. -/
@[simp] theorem ok_map {α β : Type} (a : α) (f : α → β) :
    f <$> (Except.ok a : Except Err α) = .ok (f a) := rfl

/-- Reduction of `Functor.map` on a failed `Except` value. -/
@[simp] theorem error_map {α β : Type} (e : Err) (f : α → β) :
    f <$> (Except.error e : Except Err α) = .error e := rfl

/-- Embedding of the classmethod `_Serializable.from_json(cls, j)` for a
serializer class with schema `sch` and annotations `flds`:
`cls(**_from_json_with_match(j, cls._schema, cls.__annotations__))`. -/
def fromJson (sch : Schema) (flds : Fields) (j : PyVal) : Except Err PyVal := do
  let b ← fromJsonWithMatch j sch flds
  mkRecord sch flds b

/-- Unfolding of `List.lookup` on a cons cell. -/
@[simp] theorem lookup_cons_eq {β : Type} (k k1 : String) (v1 : β)
    (rest : List (String × β)) :
    ((k1, v1) :: rest).lookup k = if (k == k1) then some v1 else rest.lookup k := by
  simp only [List.lookup]
  cases h : (k == k1) <;> simp

/-- Case equation: primitive `str` field types pass the value through. -/
@[simp] theorem ffj_str (j : PyVal) : fieldFromJson j .str = .ok j := by
  simp [fieldFromJson]

/-- Case equation: primitive `int` field types pass the value through. -/
@[simp] theorem ffj_int (j : PyVal) : fieldFromJson j .int = .ok j := by
  simp [fieldFromJson]

/-- Case equation: primitive `bool` field types pass the value through. -/
@[simp] theorem ffj_bool (j : PyVal) : fieldFromJson j .bool = .ok j := by
  simp [fieldFromJson]

/-- Case equation: `Literal` field types test membership by Python `==`. -/
@[simp] theorem ffj_lit (j : PyVal) (args : List Prim) :
    fieldFromJson j (.lit args) =
      if args.any (fun p => pyEq j p.toVal) then .ok j
      else .error .litSetMismatch := by
  simp [fieldFromJson]

/-- Case equation: `Union` field types run the alternative loop. -/
@[simp] theorem ffj_union (j : PyVal) (alts : List FieldType) :
    fieldFromJson j (.union alts) = coerceUnion j alts := by
  simp [fieldFromJson]

/-- Case equation: `List[t]` field types coerce every iterated element. -/
@[simp] theorem ffj_list (j : PyVal) (elemTy : FieldType) :
    fieldFromJson j (.list elemTy) = do
      let xs ← pyElems j
      let ys ← coerceEach xs elemTy
      return .list ys := by
  simp [fieldFromJson]

/-- Case equation: `Tuple[ts]` field types assert the arity and return a
generator of the positional coercions. -/
@[simp] theorem ffj_tuple (j : PyVal) (elemTys : List FieldType) :
    fieldFromJson j (.tuple elemTys) =
      (do
        let n ← pyLen j
        if n = elemTys.length then do
          let xs ← pyElems j
          let ys ← coercePairs xs elemTys
          return PyVal.gen ys
        else .error .assertionError) := by
  simp [fieldFromJson]

/-- Case equation: `Dict` field types hit `assert False`. -/
@[simp] theorem ffj_dict (j : PyVal) :
    fieldFromJson j .dict = .error .assertionError := by
  simp [fieldFromJson]

/-- Case equation: nested serializer field types delegate to that class's
`from_json`. -/
@[simp] theorem ffj_nested (j : PyVal) (sch : Schema) (flds : Fields) :
    fieldFromJson j (.nested sch flds) =
      (do
        let b ← fromJsonWithMatch j sch flds
        mkRecord sch flds b) := by
  simp [fieldFromJson]

/-- Case equation: an exhausted union loop raises. -/
@[simp] theorem cu_nil (j : PyVal) :
    coerceUnion j [] = .error .unionExhausted := by
  simp [coerceUnion]

/-- Case equation: a successful alternative wins the union loop. -/
theorem cu_ok (j : PyVal) (a : FieldType) (rest : List FieldType)
    (v : PyVal) (h : fieldFromJson j a = .ok v) :
    coerceUnion j (a :: rest) = .ok v := by
  simp [coerceUnion, h]

/-- Case equation: a failing alternative is swallowed and the loop moves on. -/
theorem cu_err (j : PyVal) (a : FieldType) (rest : List FieldType)
    (e : Err) (h : fieldFromJson j a = .error e) :
    coerceUnion j (a :: rest) = coerceUnion j rest := by
  simp [coerceUnion, h]

/-- Case equation: coercing no elements yields no elements. -/
@[simp] theorem ce_nil (ft : FieldType) : coerceEach [] ft = .ok [] := by
  simp [coerceEach]

/-- Case equation: elementwise coercion of a cons cell. -/
@[simp] theorem ce_cons (x : PyVal) (xs : List PyVal) (ft : FieldType) :
    coerceEach (x :: xs) ft = do
      let y ← fieldFromJson x ft
      let ys ← coerceEach xs ft
      return y :: ys := by
  simp [coerceEach]

/-- Case equation: positional coercion against no remaining types. -/
@[simp] theorem cp_nil_types (xs : List PyVal) : coercePairs xs [] = .ok [] := by
  cases xs <;> simp [coercePairs]

/-- Case equation: positional coercion with no remaining values. -/
@[simp] theorem cp_nil_vals (ft : FieldType) (fts : List FieldType) :
    coercePairs [] (ft :: fts) = .ok [] := by
  simp [coercePairs]

/-- Case equation: positional coercion of a cons pair. -/
@[simp] theorem cp_cons (x : PyVal) (xs : List PyVal) (ft : FieldType)
    (fts : List FieldType) :
    coercePairs (x :: xs) (ft :: fts) = do
      let y ← fieldFromJson x ft
      let ys ← coercePairs xs fts
      return y :: ys := by
  simp [coercePairs]

/-- Case equation: a sequence schema iterates the value, matches the
zipped pairs and merges the bindings. -/
@[simp] theorem fm_seq (j : PyVal) (subs : List Schema) (fields : Fields) :
    fromJsonWithMatch j (.seq subs) fields = do
      let xs ← pyElems j
      let ms ← matchZip xs subs fields
      return chainDict ms := by
  simp [fromJsonWithMatch]

/-- Case equation: a string leaf naming a declared field binds the
coercion of the value. -/
theorem fm_field (j : PyVal) (s : String) (fields : Fields)
    (ft : FieldType) (h : fields.lookup s = some ft) :
    fromJsonWithMatch j (.str s) fields = do
      let v ← fieldFromJson j ft
      return [(s, v)] := by
  rw [fromJsonWithMatch]
  split
  · rename_i heq
    rw [h] at heq
    cases heq
    rfl
  · rename_i heq
    rw [h] at heq
    cases heq

/-- Case equation: a string leaf not naming a field is a literal that must
equal the value. -/
theorem fm_strlit (j : PyVal) (s : String) (fields : Fields)
    (h : fields.lookup s = none) :
    fromJsonWithMatch j (.str s) fields =
      if pyEq (.str s) j then .ok [] else .error .literalMismatch := by
  rw [fromJsonWithMatch]
  split
  · rename_i heq
    rw [h] at heq
    cases heq
  · rfl

/-- Case equation: a string leaf, stated as the source's two-way branch on
the annotation lookup (used for concrete evaluation). -/
theorem fm_str (j : PyVal) (s : String) (fields : Fields) :
    fromJsonWithMatch j (.str s) fields =
      (match fields.lookup s with
       | some ft => do
         let v ← fieldFromJson j ft
         return [(s, v)]
       | none =>
         if pyEq (.str s) j then .ok [] else .error .literalMismatch) := by
  cases h : fields.lookup s
  · rw [fm_strlit j s fields h]
  · rw [fm_field j s fields _ h]

/-- Case equation: the union loop on a cons cell, stated as the source's
branch on the head coercion's outcome (used for concrete evaluation). -/
theorem cu_cons (j : PyVal) (a : FieldType) (rest : List FieldType) :
    coerceUnion j (a :: rest) =
      (match fieldFromJson j a with
       | .ok v => .ok v
       | .error _ => coerceUnion j rest) := by
  cases h : fieldFromJson j a
  · rw [cu_err j a rest _ h]
  · rw [cu_ok j a rest _ h]

/-- Case equation: an int literal leaf contributes no bindings and performs
no check. -/
@[simp] theorem fm_int (j : PyVal) (n : Int) (fields : Fields) :
    fromJsonWithMatch j (.int n) fields = .ok [] := by
  simp [fromJsonWithMatch]

/-- Case equation: a bool literal leaf contributes no bindings and performs
no check. -/
@[simp] theorem fm_bool (j : PyVal) (b : Bool) (fields : Fields) :
    fromJsonWithMatch j (.bool b) fields = .ok [] := by
  simp [fromJsonWithMatch]

/-- Case equation: zipping past the end of the schema list. -/
@[simp] theorem mz_nil_schema (xs : List PyVal) (fields : Fields) :
    matchZip xs [] fields = .ok [] := by
  cases xs <;> simp [matchZip]

/-- Case equation: zipping past the end of the value list. -/
@[simp] theorem mz_nil_vals (s : Schema) (ss : List Schema) (fields : Fields) :
    matchZip [] (s :: ss) fields = .ok [] := by
  simp [matchZip]

/-- Case equation: matching one zipped pair and recursing. -/
@[simp] theorem mz_cons (x : PyVal) (xs : List PyVal) (s : Schema)
    (ss : List Schema) (fields : Fields) :
    matchZip (x :: xs) (s :: ss) fields = do
      let m ← fromJsonWithMatch x s fields
      let ms ← matchZip xs ss fields
      return m :: ms := by
  simp [matchZip]

/-- Case equation: rendering a string primitive. -/
@[simp] theorem ftj_str (s : String) : fieldsToJson (.str s) = .ok (.str s) := by
  simp [fieldsToJson]

/-- Case equation: rendering an int primitive. -/
@[simp] theorem ftj_int (n : Int) : fieldsToJson (.int n) = .ok (.int n) := by
  simp [fieldsToJson]

/-- Case equation: rendering a bool primitive. -/
@[simp] theorem ftj_bool (b : Bool) : fieldsToJson (.bool b) = .ok (.bool b) := by
  simp [fieldsToJson]

/-- Case equation: rendering a list renders its elements into a JSON array. -/
@[simp] theorem ftj_list (xs : List PyVal) :
    fieldsToJson (.list xs) =
      (do
        let ys ← fieldsToJsonList xs
        return PyVal.list ys) := by
  simp [fieldsToJson]

/-- Case equation: rendering a tuple also produces a JSON array. -/
@[simp] theorem ftj_tuple (xs : List PyVal) :
    fieldsToJson (.tuple xs) =
      (do
        let ys ← fieldsToJsonList xs
        return PyVal.list ys) := by
  simp [fieldsToJson]

/-- Case equation: rendering a dict renders its values. -/
@[simp] theorem ftj_dict (kvs : List (String × PyVal)) :
    fieldsToJson (.dict kvs) =
      (do
        let ws ← fieldsToJsonKV kvs
        return PyVal.dict ws) := by
  simp [fieldsToJson]

/-- Case equation: a generator object exposes no `to_json`. -/
@[simp] theorem ftj_gen (xs : List PyVal) :
    fieldsToJson (.gen xs) = .error .attrError := by
  simp [fieldsToJson]

/-- Case equation: a record renders through its own schema. -/
@[simp] theorem ftj_record (sch : Schema) (flds : Fields) (vals : Bindings) :
    fieldsToJson (.record sch flds vals) = toJsonWithMatch sch flds vals := by
  simp [fieldsToJson]

/-- Case equation: rendering an empty element list. -/
@[simp] theorem ftjl_nil : fieldsToJsonList [] = .ok [] := by
  simp [fieldsToJsonList]

/-- Case equation: rendering a cons element list. -/
@[simp] theorem ftjl_cons (x : PyVal) (xs : List PyVal) :
    fieldsToJsonList (x :: xs) =
      (do
        let y ← fieldsToJson x
        let ys ← fieldsToJsonList xs
        return y :: ys) := by
  simp [fieldsToJsonList]

/-- Case equation: rendering an empty entry list. -/
@[simp] theorem ftjkv_nil : fieldsToJsonKV [] = .ok [] := by
  simp [fieldsToJsonKV]

/-- Case equation: rendering a cons entry list. -/
@[simp] theorem ftjkv_cons (k : String) (v : PyVal) (kvs : List (String × PyVal)) :
    fieldsToJsonKV ((k, v) :: kvs) =
      (do
        let w ← fieldsToJson v
        let ws ← fieldsToJsonKV kvs
        return (k, w) :: ws) := by
  simp [fieldsToJsonKV]

/-- Case equation: projecting a sequence schema projects each sub-schema. -/
@[simp] theorem tjm_seq (subs : List Schema) (flds : Fields) (vals : Bindings) :
    toJsonWithMatch (.seq subs) flds vals =
      (do
        let ys ← toJsonZip subs flds vals
        return PyVal.list ys) := by
  simp [toJsonWithMatch]

/-- Case equation: a string leaf naming a declared field renders that
field's current value. -/
theorem tjm_field (s : String) (flds : Fields) (vals : Bindings) (v : PyVal)
    (h1 : (flds.lookup s).isSome = true) (h2 : vals.lookup s = some v) :
    toJsonWithMatch (.str s) flds vals = fieldsToJson v := by
  rw [toJsonWithMatch]
  rw [if_pos h1]
  split
  · rename_i heq
    rw [h2] at heq
    cases heq
    rfl
  · rename_i heq
    rw [h2] at heq
    cases heq

/-- Case equation: a string leaf not naming a field is emitted literally. -/
theorem tjm_lit (s : String) (flds : Fields) (vals : Bindings)
    (h : (flds.lookup s).isSome = false) :
    toJsonWithMatch (.str s) flds vals = .ok (.str s) := by
  rw [toJsonWithMatch]
  rw [if_neg]
  simp [h]

/-- Case equation: an int schema leaf is emitted literally. -/
@[simp] theorem tjm_int (n : Int) (flds : Fields) (vals : Bindings) :
    toJsonWithMatch (.int n) flds vals = .ok (.int n) := by
  simp [toJsonWithMatch]

/-- Case equation: a bool schema leaf is emitted literally. -/
@[simp] theorem tjm_bool (b : Bool) (flds : Fields) (vals : Bindings) :
    toJsonWithMatch (.bool b) flds vals = .ok (.bool b) := by
  simp [toJsonWithMatch]

/-- Case equation: projecting an empty sub-schema list. -/
@[simp] theorem tz_nil (flds : Fields) (vals : Bindings) :
    toJsonZip [] flds vals = .ok [] := by
  simp [toJsonZip]

/-- Case equation: projecting a cons sub-schema list. -/
@[simp] theorem tz_cons (s : Schema) (ss : List Schema) (flds : Fields)
    (vals : Bindings) :
    toJsonZip (s :: ss) flds vals =
      (do
        let y ← toJsonWithMatch s flds vals
        let ys ← toJsonZip ss flds vals
        return y :: ys) := by
  simp [toJsonZip]

/-- Embedding of the method `_Serializable.to_json(self)`:
`_to_json_with_match(self._schema, self)`. -/
def toJson : PyVal → Except Err PyVal
  | .record sch flds vals => toJsonWithMatch sch flds vals
  | _ => .error .attrError

/-- C10: for every JSON value and every primitive field type (`str`, `int`
or `bool`), coercion returns the value unchanged; no check against the
claimed primitive kind is performed, so in particular an integer is
accepted where a string field type was declared. -/
theorem c10_primitive_passthrough :
    ∀ j : PyVal, fieldFromJson j .str = .ok j ∧ fieldFromJson j .int = .ok j ∧
      fieldFromJson j .bool = .ok j :=
  fun j => ⟨ffj_str j, ffj_int j, ffj_bool j⟩

/-- C8: coercing any JSON value against a field type declared as a
string-keyed mapping always fails (the `assert False` branch); it never
succeeds. -/
theorem c8_dict_field_always_fails :
    ∀ j : PyVal, fieldFromJson j .dict = .error .assertionError :=
  fun j => ffj_dict j

/-- C2 counterexample: matching the value `7` against the integer literal
leaf `5` succeeds with an empty binding mapping, although `7 ≠ 5`; the
claimed literal-mismatch failure does not happen. -/
theorem c2_counterexample :
    fromJsonWithMatch (.int 7) (.int 5) [] = .ok [] ∧ (7 : Int) ≠ 5 :=
  ⟨fm_int (.int 7) 5 [], by decide⟩

/-- C2 amended: during matching, an integer or boolean literal leaf of the
schema contributes an empty binding mapping unconditionally; the
corresponding element of the JSON value is never compared against the
literal, so no inequality is ever reported. -/
theorem c2_int_bool_literal_unchecked :
    ∀ (j : PyVal) (n : Int) (b : Bool) (fields : Fields),
      fromJsonWithMatch j (.int n) fields = .ok [] ∧
      fromJsonWithMatch j (.bool b) fields = .ok [] :=
  fun j n b fields => ⟨fm_int j n fields, fm_bool j b fields⟩

/-- C5: coercing a JSON array against a fixed-arity tuple field type fails
(with the arity `assert`) whenever the array's length differs from the
declared number of element field types. -/
theorem c5_tuple_arity (js : List PyVal) (fts : List FieldType)
    (h : js.length ≠ fts.length) :
    fieldFromJson (.list js) (.tuple fts) = .error .assertionError := by
  rw [ffj_tuple]
  rw [show pyLen (.list js) = .ok js.length from rfl]
  rw [ok_bind]
  rw [if_neg h]

/-- C5 witness: a tuple field type of arity 2 fails on a 3-element array. -/
theorem c5_tuple_arity_witness :
    fieldFromJson (.list [.int 1, .int 2, .int 3]) (.tuple [.int, .int]) =
      .error .assertionError :=
  c5_tuple_arity [.int 1, .int 2, .int 3] [.int, .int] (by decide)

/-- When the alternatives at indices below `i` all raise and the
alternative at `i` coerces successfully, the union loop returns that
alternative's result. -/
theorem coerceUnion_first (j : PyVal) :
    ∀ (alts : List FieldType) (i : Nat) (hi : i < alts.length) (v : PyVal),
      fieldFromJson j (alts.get ⟨i, hi⟩) = .ok v →
      (∀ k (hk : k < i),
        ∃ e, fieldFromJson j (alts.get ⟨k, Nat.lt_trans hk hi⟩) = .error e) →
      coerceUnion j alts = .ok v := by
  intro alts
  induction alts with
  | nil => intro i hi; exact absurd hi (by simp)
  | cons a rest ih =>
    intro i hi v hok hfail
    cases i with
    | zero =>
      exact cu_ok j a rest v hok
    | succ i =>
      obtain ⟨e, he⟩ := hfail 0 (Nat.succ_pos i)
      rw [cu_err j a rest e he]
      exact ih i (Nat.lt_of_succ_lt_succ hi) v hok
        (fun k hk => hfail (k + 1) (Nat.succ_lt_succ hk))

/-- When the union loop reports an error, the error is the trailing
union-exhausted raise, and every alternative raised. -/
theorem coerceUnion_err (j : PyVal) :
    ∀ (alts : List FieldType) (e : Err), coerceUnion j alts = .error e →
      e = .unionExhausted ∧
      ∀ k (hk : k < alts.length),
        ∃ e2, fieldFromJson j (alts.get ⟨k, hk⟩) = .error e2 := by
  intro alts
  induction alts with
  | nil =>
    intro e he
    rw [cu_nil] at he
    cases he
    exact ⟨rfl, fun k hk => absurd hk (by simp)⟩
  | cons a rest ih =>
    intro e he
    cases h : fieldFromJson j a with
    | ok v => rw [cu_ok j a rest v h] at he; cases he
    | error e0 =>
      rw [cu_err j a rest e0 h] at he
      obtain ⟨h1, h2⟩ := ih e he
      refine ⟨h1, fun k hk => ?_⟩
      cases k with
      | zero => exact ⟨e0, h⟩
      | succ k => exact h2 k (Nat.lt_of_succ_lt_succ hk)

/-- C6: a tagged union tries its alternatives in declared order: if every
alternative before index `i` raises and alternative `i` succeeds, the
union's result is alternative `i`'s result; the union fails, with the
union-exhausted error, exactly when every alternative fails; and for the
union of the literal sets `{0,1}` and `{1,2}`, coercing `1` returns the
first alternative's (successful) result. -/
theorem c6_union_order :
    (∀ (j : PyVal) (alts : List FieldType) (i : Nat) (hi : i < alts.length)
        (v : PyVal),
      fieldFromJson j (alts.get ⟨i, hi⟩) = .ok v →
      (∀ k (hk : k < i),
        ∃ e, fieldFromJson j (alts.get ⟨k, Nat.lt_trans hk hi⟩) = .error e) →
      fieldFromJson j (.union alts) = .ok v) ∧
    (∀ (j : PyVal) (alts : List FieldType),
      fieldFromJson j (.union alts) = .error .unionExhausted ↔
      ∀ k (hk : k < alts.length),
        ∃ e, fieldFromJson j (alts.get ⟨k, hk⟩) = .error e) ∧
    fieldFromJson (.int 1)
        (.union [.lit [.int 0, .int 1], .lit [.int 1, .int 2]]) =
      .ok (.int 1) := by
  refine ⟨?_, ?_, ?_⟩
  · intro j alts i hi v hok hfail
    rw [ffj_union]
    exact coerceUnion_first j alts i hi v hok hfail
  · intro j alts
    rw [ffj_union]
    constructor
    · intro he
      exact (coerceUnion_err j alts .unionExhausted he).2
    · intro hall
      induction alts with
      | nil => exact cu_nil j
      | cons a rest ih =>
        obtain ⟨e, he⟩ := hall 0 (Nat.succ_pos rest.length)
        rw [cu_err j a rest e he]
        exact ih (fun k hk => hall (k + 1) (Nat.succ_lt_succ hk))
  · rw [ffj_union]
    refine cu_ok _ _ _ _ ?_
    rw [ffj_lit]
    rw [if_pos (by decide)]

/-- C6 witness: the union precedence theorem applied at the claim's example
(both literal sets accept `1`; the first one answers) and at a value no
alternative accepts. -/
theorem c6_union_order_witness :
    fieldFromJson (.int 1)
        (.union [.lit [.int 0, .int 1], .lit [.int 1, .int 2]]) =
      .ok (.int 1) ∧
    fieldFromJson (.str "z") (.union [.lit [.int 0, .int 1]]) =
      .error .unionExhausted := by
  constructor
  · exact c6_union_order.1 (.int 1) [.lit [.int 0, .int 1], .lit [.int 1, .int 2]]
      0 (by decide) (.int 1)
      (by
        show fieldFromJson (.int 1) (FieldType.lit [.int 0, .int 1]) =
          .ok (.int 1)
        rw [ffj_lit]
        rw [if_pos (by decide)])
      (fun k hk => absurd hk (by omega))
  · refine (c6_union_order.2.1 (.str "z") [.lit [.int 0, .int 1]]).2 ?_
    intro k hk
    refine ⟨.litSetMismatch, ?_⟩
    have hk1 : k < 1 := by simpa using hk
    have hk0 : k = 0 := by omega
    subst hk0
    show fieldFromJson (.str "z") (FieldType.lit [.int 0, .int 1]) =
      .error .litSetMismatch
    rw [ffj_lit]
    rw [if_neg (by decide)]

/-- Appending extra values past the schema's length does not change the
result of the zipped match (`zip` truncates). -/
theorem matchZip_append (fields : Fields) (extra : List PyVal) :
    ∀ (ss : List Schema) (js : List PyVal), js.length = ss.length →
      matchZip (js ++ extra) ss fields = matchZip js ss fields := by
  intro ss
  induction ss with
  | nil => intro js h; rw [mz_nil_schema, mz_nil_schema]
  | cons s ss ih =>
    intro js h
    cases js with
    | nil => simp at h
    | cons j js =>
      rw [List.cons_append, mz_cons, mz_cons, ih js (by simpa using h)]

/-- C3 counterexample: matching a two-element value against a one-element
sequence schema succeeds (with empty bindings); the extra element `"b"` is
silently ignored instead of causing a failure. -/
theorem c3_counterexample :
    fromJsonWithMatch (.list [.str "a", .str "b"]) (.seq [.str "a"]) [] =
      .ok [] := by
  rw [fm_seq]
  rw [show pyElems (.list [.str "a", .str "b"]) = .ok [.str "a", .str "b"] from rfl]
  rw [ok_bind]
  rw [mz_cons]
  rw [fm_strlit (.str "a") "a" []
    (show List.lookup "a" ([] : Fields) = none from rfl)]
  rw [if_pos (by decide)]
  rw [ok_bind]
  rw [mz_nil_schema]
  rw [ok_bind, pure_ok, ok_bind, pure_ok]
  rfl

/-- C3 amended: sequence-schema matching zips the value with the schema's
sub-schema list positionally and truncates to the shorter of the two:
appending extra value elements past the schema's length never changes the
result (so extra elements are silently ignored, not rejected), and a value
with fewer elements than the schema also matches, skipping the remaining
sub-schemas. -/
theorem c3_zip_truncates :
    (∀ (js extra : List PyVal) (ss : List Schema) (fields : Fields),
      js.length = ss.length →
      fromJsonWithMatch (.list (js ++ extra)) (.seq ss) fields =
        fromJsonWithMatch (.list js) (.seq ss) fields) ∧
    (∀ (s : Schema) (ss : List Schema) (fields : Fields),
      fromJsonWithMatch (.list []) (.seq (s :: ss)) fields = .ok []) := by
  constructor
  · intro js extra ss fields h
    rw [fm_seq, fm_seq]
    rw [show pyElems (.list (js ++ extra)) = .ok (js ++ extra) from rfl]
    rw [show pyElems (.list js) = .ok js from rfl]
    rw [ok_bind, ok_bind]
    rw [matchZip_append fields extra ss js h]
  · intro s ss fields
    rw [fm_seq]
    rw [show pyElems (.list []) = .ok [] from rfl]
    rw [ok_bind, mz_nil_vals, ok_bind, pure_ok]
    rfl

/-- C3 witness: the truncation theorem applied at a concrete
length-matched prefix with one extra element, and at an empty value
against a one-element schema. -/
theorem c3_zip_truncates_witness :
    fromJsonWithMatch (.list ([.str "a"] ++ [.str "b"])) (.seq [.str "a"]) [] =
      fromJsonWithMatch (.list [.str "a"]) (.seq [.str "a"]) [] ∧
    fromJsonWithMatch (.list []) (.seq [.int 0]) [] = .ok [] :=
  ⟨c3_zip_truncates.1 [.str "a"] [.str "b"] [.str "a"] [] rfl,
   c3_zip_truncates.2 (.int 0) [] []⟩

/-- Looking up in an appended association list searches the left part
first. -/
theorem lookup_append (k : String) (ys : Bindings) :
    ∀ xs : Bindings, (xs ++ ys).lookup k =
      (match xs.lookup k with
       | some v => some v
       | none => ys.lookup k) := by
  intro xs
  induction xs with
  | nil => simp [List.lookup]
  | cons p xs ih =>
    obtain ⟨k1, v1⟩ := p
    rw [List.cons_append, lookup_cons_eq, lookup_cons_eq]
    cases h : (k == k1) with
    | true => rw [if_pos rfl, if_pos rfl]
    | false => rw [if_neg (by simp), if_neg (by simp)]; exact ih

/-- Dropping later duplicate keys does not change lookups (the first
occurrence of each key is the one kept). -/
theorem dedup_lookup (k : String) :
    ∀ (xs : Bindings) (seen : List String), k ∉ seen →
      (dedupKeys seen xs).lookup k = xs.lookup k := by
  intro xs
  induction xs with
  | nil => intro seen hseen; rfl
  | cons p rest ih =>
    intro seen hseen
    obtain ⟨k1, v1⟩ := p
    by_cases h1 : k1 ∈ seen
    · have hne : (k == k1) = false := by
        rw [beq_eq_false_iff_ne]
        intro he
        exact hseen (he ▸ h1)
      simp only [dedupKeys]
      rw [if_pos h1, lookup_cons_eq, if_neg (by simp [hne])]
      exact ih seen hseen
    · simp only [dedupKeys]
      rw [if_neg h1, lookup_cons_eq, lookup_cons_eq]
      cases hkk : (k == k1) with
      | true => rw [if_pos rfl, if_pos rfl]
      | false =>
        rw [if_neg (by simp), if_neg (by simp)]
        refine ih (k1 :: seen) ?_
        intro hmem
        rcases List.mem_cons.mp hmem with he | hs
        · rw [beq_eq_false_iff_ne] at hkk
          exact hkk he
        · exact hseen hs

/-- C7: when several sibling sub-schemas of one sequence schema bind the
same field name, `dict(ChainMap(...))` keeps the value bound by the
earliest (leftmost) sibling: if the `i`-th sub-binding map carries `k` and
every earlier one does not, the merged flat mapping resolves `k` to the
`i`-th map's value; and the sequence-schema matcher returns exactly that
merge of the zipped sub-results. -/
theorem c7_earliest_binding_wins :
    (∀ (k : String) (v : PyVal) (ms : List Bindings) (i : Nat)
        (hi : i < ms.length),
      (ms.get ⟨i, hi⟩).lookup k = some v →
      (∀ l (hl : l < i), (ms.get ⟨l, Nat.lt_trans hl hi⟩).lookup k = none) →
      (chainDict ms).lookup k = some v) ∧
    (∀ (js : List PyVal) (ss : List Schema) (fields : Fields)
        (ms : List Bindings),
      matchZip js ss fields = .ok ms →
      fromJsonWithMatch (.list js) (.seq ss) fields = .ok (chainDict ms)) := by
  constructor
  · intro k v ms
    have main : ∀ (ms : List Bindings) (i : Nat) (hi : i < ms.length),
        (ms.get ⟨i, hi⟩).lookup k = some v →
        (∀ l (hl : l < i), (ms.get ⟨l, Nat.lt_trans hl hi⟩).lookup k = none) →
        (ms.flatten).lookup k = some v := by
      intro ms
      induction ms with
      | nil => intro i hi; exact absurd hi (by simp)
      | cons m ms ih =>
        intro i hi hsome hnone
        rw [List.flatten_cons, lookup_append]
        cases i with
        | zero =>
          have hsome0 : m.lookup k = some v := hsome
          rw [hsome0]
        | succ i =>
          have h0 : m.lookup k = none := hnone 0 (Nat.succ_pos i)
          rw [h0]
          exact ih i (Nat.lt_of_succ_lt_succ hi) hsome
            (fun l hl => hnone (l + 1) (Nat.succ_lt_succ hl))
    intro i hi hsome hnone
    show (chainDict ms).lookup k = some v
    rw [chainDict, dedup_lookup k ms.flatten [] (by simp)]
    exact main ms i hi hsome hnone
  · intro js ss fields ms h
    rw [fm_seq]
    rw [show pyElems (.list js) = .ok js from rfl]
    rw [ok_bind, h, ok_bind, pure_ok]

/-- C7 witness: with schema `["f", "f"]` (the same field bound twice) and
value `[1, 2]`, the two sub-matches bind `f` to `1` and to `2`, and the
merged mapping resolves `f` to the earliest sibling's value `1`. -/
theorem c7_earliest_binding_wins_witness :
    (chainDict [[("f", PyVal.int 1)], [("f", PyVal.int 2)]]).lookup "f" =
      some (.int 1) ∧
    fromJsonWithMatch (.list [.int 1, .int 2]) (.seq [.str "f", .str "f"])
        [("f", .int)] =
      .ok (chainDict [[("f", .int 1)], [("f", .int 2)]]) := by
  constructor
  · exact c7_earliest_binding_wins.1 "f" (.int 1)
      [[("f", .int 1)], [("f", .int 2)]] 0 (by decide) rfl
      (fun l hl => absurd hl (by omega))
  · refine c7_earliest_binding_wins.2 [.int 1, .int 2] [.str "f", .str "f"]
      [("f", .int)] [[("f", .int 1)], [("f", .int 2)]] ?_
    rw [mz_cons]
    rw [fm_field (.int 1) "f" [("f", .int)] .int
      (show List.lookup "f" [("f", FieldType.int)] = some .int from rfl)]
    rw [ffj_int, ok_bind, pure_ok, ok_bind]
    rw [mz_cons]
    rw [fm_field (.int 2) "f" [("f", .int)] .int
      (show List.lookup "f" [("f", FieldType.int)] = some .int from rfl)]
    rw [ffj_int, ok_bind, pure_ok, ok_bind]
    rw [mz_nil_schema, ok_bind, pure_ok, ok_bind, pure_ok]

/-- C9: for the record type with schema `["kind_a", "value"]` where
`"value"` is a declared (int) field and `"kind_a"` is not declared,
`from_json` rejects `["kind_b", 5]` with the literal-mismatch failure and
accepts `["kind_a", 5]`, binding `value` to `5`. -/
theorem c9_literal_discrimination :
    fromJson (.seq [.str "kind_a", .str "value"]) [("value", .int)]
        (.list [.str "kind_b", .int 5]) = .error .literalMismatch ∧
    fromJson (.seq [.str "kind_a", .str "value"]) [("value", .int)]
        (.list [.str "kind_a", .int 5]) =
      .ok (.record (.seq [.str "kind_a", .str "value"]) [("value", .int)]
            [("value", .int 5)]) := by
  constructor
  · have hm : fromJsonWithMatch (.list [.str "kind_b", .int 5])
        (.seq [.str "kind_a", .str "value"]) [("value", FieldType.int)] =
        .error .literalMismatch := by
      rw [fm_seq]
      rw [show pyElems (.list [.str "kind_b", .int 5]) =
        .ok [.str "kind_b", .int 5] from rfl]
      rw [ok_bind, mz_cons]
      rw [fm_strlit (.str "kind_b") "kind_a" [("value", FieldType.int)]
        (show List.lookup "kind_a" [("value", FieldType.int)] = none from rfl)]
      rw [if_neg (by decide)]
      rw [error_bind, error_bind]
    unfold fromJson
    rw [hm, error_bind]
  · have hm : fromJsonWithMatch (.list [.str "kind_a", .int 5])
        (.seq [.str "kind_a", .str "value"]) [("value", FieldType.int)] =
        .ok [("value", .int 5)] := by
      rw [fm_seq]
      rw [show pyElems (.list [.str "kind_a", .int 5]) =
        .ok [.str "kind_a", .int 5] from rfl]
      rw [ok_bind, mz_cons]
      rw [fm_strlit (.str "kind_a") "kind_a" [("value", FieldType.int)]
        (show List.lookup "kind_a" [("value", FieldType.int)] = none from rfl)]
      rw [if_pos (by decide)]
      rw [ok_bind, mz_cons]
      rw [fm_field (.int 5) "value" [("value", FieldType.int)] .int
        (show List.lookup "value" [("value", FieldType.int)] =
          some FieldType.int from rfl)]
      rw [ffj_int, ok_bind, pure_ok, ok_bind, mz_nil_schema, ok_bind, pure_ok,
        ok_bind, pure_ok]
      rfl
    unfold fromJson
    rw [hm, ok_bind]
    rfl

/-- C4: the fixed-arity tuple branch of `_field_from_json`, applied to the
array `[1, 2]` and the field type `Tuple[int, int]`, returns a generator
object carrying the positional coercions — not a tuple: the result
compares unequal (by Python `==`) to the tuple `(1, 2)` it was declared
to produce. -/
theorem c4_tuple_returns_generator :
    fieldFromJson (.list [.int 1, .int 2]) (.tuple [.int, .int]) =
      .ok (.gen [.int 1, .int 2]) ∧
    pyEq (.gen [.int 1, .int 2]) (.tuple [.int 1, .int 2]) = false := by
  constructor
  · rw [ffj_tuple]
    rw [show pyLen (.list [.int 1, .int 2]) = .ok 2 from rfl]
    rw [ok_bind]
    rw [if_pos (show (2 : Nat) = [FieldType.int, FieldType.int].length from rfl)]
    rw [show pyElems (.list [.int 1, .int 2]) = .ok [.int 1, .int 2] from rfl]
    rw [ok_bind]
    rw [cp_cons, ffj_int, ok_bind, cp_cons, ffj_int, ok_bind, cp_nil_types,
      ok_bind, pure_ok, ok_bind, pure_ok, ok_bind, pure_ok]
  · rfl

/-- Schema of the example record type used for the round-trip claim:
one field reference `"t"`. -/
def tupleSchema : Schema := .seq [.str "t"]

/-- Annotations of the example record type: one field `t : Tuple[int, int]`. -/
def tupleFields : Fields := [("t", .tuple [.int, .int])]

/-- The example instance: `t = (1, 2)` (an actual tuple). -/
def tupleRecX : PyVal := .record tupleSchema tupleFields
  [("t", .tuple [.int 1, .int 2])]

/-- C1: round-trip failure caused by the tuple branch returning a
generator expression: for the record `x` with `t = (1, 2)`, `to_json(x)`
is `[[1, 2]]`, `from_json` of that succeeds but stores a generator in `t`,
and the result compares unequal to `x` — `from_json(to_json(x)) ≠ x`. -/
theorem c1_roundtrip_generator_bug :
    toJson tupleRecX = .ok (.list [.list [.int 1, .int 2]]) ∧
    fromJson tupleSchema tupleFields (.list [.list [.int 1, .int 2]]) =
      .ok (.record tupleSchema tupleFields [("t", .gen [.int 1, .int 2])]) ∧
    pyEq (.record tupleSchema tupleFields [("t", .gen [.int 1, .int 2])])
      tupleRecX = false := by
  refine ⟨?_, ?_, ?_⟩
  · show toJsonWithMatch (.seq [.str "t"]) [("t", .tuple [.int, .int])]
      [("t", .tuple [.int 1, .int 2])] = .ok (.list [.list [.int 1, .int 2]])
    rw [tjm_seq, tz_cons]
    rw [tjm_field "t" [("t", .tuple [.int, .int])]
      [("t", .tuple [.int 1, .int 2])] (.tuple [.int 1, .int 2])
      (show (List.lookup "t" [("t", FieldType.tuple [.int, .int])]).isSome =
        true from rfl)
      (show List.lookup "t" [("t", PyVal.tuple [.int 1, .int 2])] =
        some (.tuple [.int 1, .int 2]) from rfl)]
    rw [ftj_tuple, ftjl_cons, ftj_int, ok_bind, ftjl_cons, ftj_int, ok_bind,
      ftjl_nil, ok_bind, pure_ok, ok_bind, pure_ok, ok_bind, pure_ok, ok_bind,
      tz_nil, ok_bind, pure_ok, ok_bind, pure_ok]
  · have hcoerce : fieldFromJson (.list [.int 1, .int 2])
        (.tuple [.int, .int]) = .ok (.gen [.int 1, .int 2]) := by
      rw [ffj_tuple]
      rw [show pyLen (.list [.int 1, .int 2]) = .ok 2 from rfl]
      rw [ok_bind]
      rw [if_pos
        (show (2 : Nat) = [FieldType.int, FieldType.int].length from rfl)]
      rw [show pyElems (.list [.int 1, .int 2]) = .ok [.int 1, .int 2] from rfl]
      rw [ok_bind]
      rw [cp_cons, ffj_int, ok_bind, cp_cons, ffj_int, ok_bind, cp_nil_types,
        ok_bind, pure_ok, ok_bind, pure_ok, ok_bind, pure_ok]
    have hm : fromJsonWithMatch (.list [.list [.int 1, .int 2]])
        (.seq [.str "t"]) [("t", FieldType.tuple [.int, .int])] =
        .ok [("t", .gen [.int 1, .int 2])] := by
      rw [fm_seq]
      rw [show pyElems (.list [.list [.int 1, .int 2]]) =
        .ok [.list [.int 1, .int 2]] from rfl]
      rw [ok_bind, mz_cons]
      rw [fm_field (.list [.int 1, .int 2]) "t"
        [("t", FieldType.tuple [.int, .int])] (.tuple [.int, .int])
        (show List.lookup "t" [("t", FieldType.tuple [.int, .int])] =
          some (.tuple [.int, .int]) from rfl)]
      rw [hcoerce, ok_bind, pure_ok, ok_bind, mz_nil_schema, ok_bind, pure_ok,
        ok_bind, pure_ok]
      rfl
    show (do
      let b ← fromJsonWithMatch (.list [.list [.int 1, .int 2]])
        (.seq [.str "t"]) [("t", FieldType.tuple [.int, .int])]
      mkRecord (.seq [.str "t"]) [("t", FieldType.tuple [.int, .int])] b) =
      .ok (.record tupleSchema tupleFields [("t", .gen [.int 1, .int 2])])
    rw [hm, ok_bind]
    rfl
  · rfl

end Serializer
